import Mathlib

/-!
The client `migadu-client.go`: request pipeline, identifier normalisation, alias
simulator.

A shallow embedding of `client/migadu_client.go`, `client/mailboxes.go` and of
`handleDeleteAlias` from `simulator/aliases.go`.

Conventions of the embedding.

* A Go `string` is a Lean `String`; a Go `[]byte` is `Bytes`, a list of byte
  values.  A Go `[]string` is a `List String` (a nil slice and an empty slice are
  both `[]`).
* A Go pointer that may be nil is an `Option`.
* A Go `error` is a `GoError`; `fmt.Errorf("Op: %w", err)` is `GoError.wrap "Op" err`.
* Libraries outside the repository (`golang.org/x/net/idna`, `encoding/json`,
  `net/http`, `io`) are fields of an environment record `Env`; every theorem
  quantifies over the environment.
* Effects are recorded in the value an operation returns: the requests handed to
  `HTTPClient.Do`, the HTTP requests the client sent for them (redirects
  followed), the state of the caller's mailbox at return, and the arguments of the
  calls to `idn.ConvertEmailsToASCII`.
-/

namespace Migadu

/-! ## Bytes, UTF-8 and base64 -/

/-- Byte sequences (`[]byte`), one natural number below 256 per byte. -/
abbrev Bytes := List Nat

/-- The UTF-8 encoding of one code point. -/
def utf8Char (c : Char) : Bytes :=
  let n := c.toNat
  if n < 0x80 then [n]
  else if n < 0x800 then [0xC0 + n / 64, 0x80 + n % 64]
  else if n < 0x10000 then [0xE0 + n / 4096, 0x80 + (n / 64) % 64, 0x80 + n % 64]
  else [0xF0 + n / 262144, 0x80 + (n / 4096) % 64, 0x80 + (n / 64) % 64, 0x80 + n % 64]

/-- The bytes of a Go string holding the text `s`. -/
def utf8 (s : String) : Bytes :=
  s.data.flatMap utf8Char

/-- The alphabet of `base64.StdEncoding`. -/
def base64Alphabet : List Char :=
  "ABCDEFGHIJKLMNOPQRSTUVWXYZabcdefghijklmnopqrstuvwxyz0123456789+/".data

/-- The base64 digit of a six-bit value. -/
def base64Digit (n : Nat) : Char :=
  base64Alphabet.getD n '='

/-- The padded standard base64 encoding (`base64.StdEncoding.EncodeToString`). -/
def base64 : Bytes → List Char
  | [] => []
  | [a] => [base64Digit (a / 4), base64Digit (a % 4 * 16), '=', '=']
  | [a, b] =>
    [base64Digit (a / 4), base64Digit (a % 4 * 16 + b / 16), base64Digit (b % 16 * 4), '=']
  | a :: b :: c :: rest =>
    base64Digit (a / 4) :: base64Digit (a % 4 * 16 + b / 16)
      :: base64Digit (b % 16 * 4 + c / 64) :: base64Digit (c % 64) :: base64 rest

/-! ## Errors -/

/-- Go error values.
* `library msg`: an error made by a library (idna, json, net/http, io) with message `msg`;
* `new msg`: `errors.New(msg)`;
* `request code body`: `&RequestError{StatusCode: code, ResponseBody: body}`;
* `wrap op err`: `fmt.Errorf(op + ": %w", err)`. -/
inductive GoError where
  | library (msg : String)
  | new (msg : String)
  | request (StatusCode : Int) (ResponseBody : Bytes)
  | wrap (op : String) (err : GoError)
deriving DecidableEq, Repr

/-- Equality of results is decidable. -/
instance instDecidableEqExcept {ε α : Type} [DecidableEq ε] [DecidableEq α] :
    DecidableEq (Except ε α) := fun a b =>
  match a, b with
  | .ok x, .ok y => if h : x = y then isTrue (by rw [h]) else isFalse (fun e => h (by cases e; rfl))
  | .error x, .error y =>
    if h : x = y then isTrue (by rw [h]) else isFalse (fun e => h (by cases e; rfl))
  | .ok _, .error _ => isFalse (fun e => by cases e)
  | .error _, .ok _ => isFalse (fun e => by cases e)

/-- The bytes of the string `err.Error()`.  For a `RequestError` it is
`fmt.Sprintf("status: %d, body: %s", e.StatusCode, e.ResponseBody)`. -/
def GoError.Error : GoError → Bytes
  | .library msg => utf8 msg
  | .new msg => utf8 msg
  | .request code body => utf8 ("status: " ++ toString code ++ ", body: ") ++ body
  | .wrap op err => utf8 (op ++ ": ") ++ err.Error

/-- The error was made by `fmt.Errorf(op + ": %w", _)`. -/
def GoError.wrappedBy (op : String) : GoError → Bool
  | .wrap op' _ => op' == op
  | _ => false

/-! ## HTTP requests and responses -/

/-- A `http.Header`: keys with their lists of values. -/
abbrev Header := List (String × List String)

/-- The values stored under a key (`Header.Values`). -/
def Header.Values (h : Header) (key : String) : List String :=
  match h.find? (fun kv => kv.1 == key) with
  | some kv => kv.2
  | none => []

/-- Replace the values of a key by one value (`Header.Set`). -/
def Header.Set (h : Header) (key value : String) : Header :=
  h.filter (fun kv => kv.1 != key) ++ [(key, [value])]

/-- Append one value to the values of a key (`Header.Add`). -/
def Header.Add (h : Header) (key value : String) : Header :=
  h.filter (fun kv => kv.1 != key) ++ [(key, Header.Values h key ++ [value])]

/-- The part of a `http.Request` the client decides: method, target, header and
body (`none` is `http.NoBody`).  `URL` is the target the request carries: the
string form of the URL that `http.NewRequestWithContext` parsed from the string it
was given. -/
structure Request where
  Method : String
  URL : String
  Header : Header
  Body : Option Bytes
deriving DecidableEq, Repr

/-- The call `req.SetBasicAuth(username, password)`: it sets `Authorization` to
`"Basic " + base64(username + ":" + password)`. -/
def Request.SetBasicAuth (req : Request) (username password : String) : Request :=
  let credentials := String.mk (base64 (utf8 (username ++ ":" ++ password)))
  { req with Header := Header.Set req.Header "Authorization" ("Basic " ++ credentials) }

/-- A response as `doRequest` sees it: the status code and the outcome of
`io.ReadAll(res.Body)`. -/
structure Response where
  StatusCode : Int
  Body : Except GoError Bytes

/-- One call of `HTTPClient.Do`: the HTTP requests the client sent while it served
the call, in order (none when it failed before sending, several when it followed
redirects: the client `New` builds sets no `CheckRedirect`), and what the call
returned. -/
structure Exchange where
  wire : List Request
  result : Except GoError Response

/-! ## The client (`client/migadu_client.go`) -/

/-- The configuration of `http.Client{Timeout: timeout}`. -/
structure HTTPClient where
  Timeout : Int
deriving DecidableEq, Repr

/-- The record `MigaduClient`. -/
structure MigaduClient where
  HTTPClient : HTTPClient
  Endpoint : String
  Username : String
  Token : String
deriving DecidableEq, Repr

/-- The function `New`; the three pointer arguments are options. -/
def New (endpoint username token : Option String) (timeout : Int) :
    Except GoError MigaduClient :=
  match username with
  | none => .error (.new "no username supplied")
  | some u =>
    match token with
    | none => .error (.new "no token supplied")
    | some t =>
      let c : MigaduClient :=
        { HTTPClient := { Timeout := timeout }
          Endpoint := "https://api.migadu.com/v1/"
          Username := u
          Token := t }
      match endpoint with
      | some e => .ok { c with Endpoint := e }
      | none => .ok c

/-- The result of a call together with the requests it handed to `HTTPClient.Do`
and the HTTP requests the client sent for them. -/
structure Call (α : Type) where
  result : Except GoError α
  handed : List Request
  wire : List Request

/-- The request `doRequest` hands to `HTTPClient.Do`: basic authentication set,
`Content-Type: application/json` added. -/
def prepare (c : MigaduClient) (req : Request) : Request :=
  let req := req.SetBasicAuth c.Username c.Token
  { req with Header := Header.Add req.Header "Content-Type" "application/json" }

/-- The method `MigaduClient.doRequest`; `Do` is `c.HTTPClient.Do` followed by
`io.ReadAll` of the body. -/
def doRequest (Do : Request → Exchange) (c : MigaduClient) (req : Request) :
    Call Bytes :=
  let req := prepare c req
  { handed := [req]
    wire := (Do req).wire
    result :=
      match (Do req).result with
      | .error err => .error err
      | .ok res =>
        match res.Body with
        | .error err => .error err
        | .ok body =>
          if res.StatusCode ≠ 200 then
            .error (.request res.StatusCode body)
          else
            .ok body }

/-! ## Identifier normalisation (`idn`) -/

/-- Which `@` of an address separates the local part from the domain part when
the address holds several. -/
inductive AtChoice where
  | first
  | last
deriving DecidableEq, Repr

/-- The library function `idna.ToASCII` and the two points the description of
`ConvertEmailsToASCII` leaves open: which `@` splits an address, and which error
an address without `@` gives. -/
structure Idn where
  ToASCII : String → Except GoError String
  choice : AtChoice
  missingAt : String → GoError

/-- Split at the first `@`: the characters before it and the characters after it. -/
def splitFirstAt : List Char → Option (List Char × List Char)
  | [] => none
  | c :: cs =>
    if c = '@' then some ([], cs)
    else
      match splitFirstAt cs with
      | some (l, d) => some (c :: l, d)
      | none => none

/-- Split at the last `@`. -/
def splitLastAt (cs : List Char) : Option (List Char × List Char) :=
  match splitFirstAt cs.reverse with
  | some (d, l) => some (l.reverse, d.reverse)
  | none => none

/-- The local part and the domain part of an address, `none` when it has no `@`. -/
def splitEmail (choice : AtChoice) (email : String) : Option (String × String) :=
  match choice with
  | .first => (splitFirstAt email.data).map (fun p => (String.mk p.1, String.mk p.2))
  | .last => (splitLastAt email.data).map (fun p => (String.mk p.1, String.mk p.2))

/-- Modelled from the spec: `idn.ConvertEmailsToASCII` (the source of package
`idn` is missing, its test `idn_test.go` is present).  For each address in order:
split at the `@`, run `ToASCII` on the domain part, rejoin as `local@asciiDomain`;
an address without `@` or whose domain fails to encode aborts the conversion with
an error at the first such entry, and no partial list is returned. -/
def ConvertEmailsToASCII (idn : Idn) : List String → Except GoError (List String)
  | [] => .ok []
  | email :: emails =>
    match splitEmail idn.choice email with
    | none => .error (idn.missingAt email)
    | some (localPart, domain) =>
      match idn.ToASCII domain with
      | .error err => .error err
      | .ok ascii =>
        match ConvertEmailsToASCII idn emails with
        | .error err => .error err
        | .ok asciiEmails => .ok ((localPart ++ "@" ++ ascii) :: asciiEmails)

/-! ## Mailbox operations (`client/mailboxes.go`) -/

/-- Modelled from the spec: `model.Mailbox` (the source of package `model` is
missing).  The three email lists are the fields `mailboxes.go` reads and writes;
`rest` stands for every other field of the record. -/
structure Mailbox (ρ : Type) where
  SenderDenyList : List String
  SenderAllowList : List String
  RecipientDenyList : List String
  rest : ρ
deriving DecidableEq, Repr

/-- Modelled from the spec: `model.Mailboxes` (the source of package `model` is
missing), the wrapper of the JSON array of mailboxes. -/
structure Mailboxes (ρ : Type) where
  mailboxes : List (Mailbox ρ)
deriving DecidableEq, Repr

/-- The libraries the mailbox operations call.
* `idn`: `idna.ToASCII` and the open points of `ConvertEmailsToASCII`;
* `Marshal`: `json.Marshal` of a `*model.Mailbox`;
* `ParseURL`: `url.Parse` as `http.NewRequestWithContext` calls it, giving the
  string form of the parsed URL (which escapes what the raw string left
  unescaped) or the error of the parser;
* `Do`: `HTTPClient.Do` followed by `io.ReadAll` of the response body;
* `UnmarshalMailbox`, `UnmarshalMailboxes`: `json.Unmarshal` into a zero value. -/
structure Env (ρ : Type) where
  idn : Idn
  Marshal : Option (Mailbox ρ) → Except GoError Bytes
  ParseURL : String → Except GoError String
  Do : Request → Exchange
  UnmarshalMailbox : Bytes → Except GoError (Mailbox ρ)
  UnmarshalMailboxes : Bytes → Except GoError (Mailboxes ρ)

/-- The call `http.NewRequestWithContext(ctx, method, url, body)` with one of the
method constants and a context: a request with an empty header whose target is
what the library parsed from `url`, or the error of the parser. -/
def NewRequestWithContext {ρ : Type} (env : Env ρ) (method url : String) (body : Option Bytes) :
    Except GoError Request :=
  match env.ParseURL url with
  | .error err => .error err
  | .ok target => .ok { Method := method, URL := target, Header := [], Body := body }

/-- The result of `CreateMailbox` or `UpdateMailbox` with its effects: requests
handed to the HTTP client and sent by it, the caller's mailbox when the call
returns, and the arguments of the calls of `ConvertEmailsToASCII` in order. -/
structure MailboxCall (ρ : Type) extends Call (Mailbox ρ) where
  mailbox : Option (Mailbox ρ)
  converted : List (List String)

/-- The method `GetMailboxes`. -/
def GetMailboxes {ρ : Type} (env : Env ρ) (c : MigaduClient) (domain : String) :
    Call (Mailboxes ρ) :=
  match env.idn.ToASCII domain with
  | .error err => { result := .error (.wrap "GetMailboxes" err), handed := [], wire := [] }
  | .ok ascii =>
    let url := c.Endpoint ++ "/domains/" ++ ascii ++ "/mailboxes"
    match NewRequestWithContext env "GET" url none with
    | .error err => { result := .error (.wrap "GetMailboxes" err), handed := [], wire := [] }
    | .ok request =>
      let call := doRequest env.Do c request
      match call.result with
      | .error err => { result := .error (.wrap "GetMailboxes" err), handed := call.handed, wire := call.wire }
      | .ok responseBody =>
        match env.UnmarshalMailboxes responseBody with
        | .error err => { result := .error (.wrap "GetMailboxes" err), handed := call.handed, wire := call.wire }
        | .ok response => { result := .ok response, handed := call.handed, wire := call.wire }

/-- The method `GetMailbox`. -/
def GetMailbox {ρ : Type} (env : Env ρ) (c : MigaduClient) (domain localPart : String) :
    Call (Mailbox ρ) :=
  match env.idn.ToASCII domain with
  | .error err => { result := .error (.wrap "GetMailbox" err), handed := [], wire := [] }
  | .ok ascii =>
    let url := c.Endpoint ++ "/domains/" ++ ascii ++ "/mailboxes/" ++ localPart
    match NewRequestWithContext env "GET" url none with
    | .error err => { result := .error (.wrap "GetMailbox" err), handed := [], wire := [] }
    | .ok request =>
      let call := doRequest env.Do c request
      match call.result with
      | .error err => { result := .error (.wrap "GetMailbox" err), handed := call.handed, wire := call.wire }
      | .ok responseBody =>
        match env.UnmarshalMailbox responseBody with
        | .error err => { result := .error (.wrap "GetMailbox" err), handed := call.handed, wire := call.wire }
        | .ok response => { result := .ok response, handed := call.handed, wire := call.wire }

/-- The method `DeleteMailbox`. -/
def DeleteMailbox {ρ : Type} (env : Env ρ) (c : MigaduClient) (domain localPart : String) :
    Call (Mailbox ρ) :=
  match env.idn.ToASCII domain with
  | .error err => { result := .error (.wrap "DeleteMailbox" err), handed := [], wire := [] }
  | .ok ascii =>
    let url := c.Endpoint ++ "/domains/" ++ ascii ++ "/mailboxes/" ++ localPart
    match NewRequestWithContext env "DELETE" url none with
    | .error err => { result := .error (.wrap "DeleteMailbox" err), handed := [], wire := [] }
    | .ok request =>
      let call := doRequest env.Do c request
      match call.result with
      | .error err => { result := .error (.wrap "DeleteMailbox" err), handed := call.handed, wire := call.wire }
      | .ok responseBody =>
        match env.UnmarshalMailbox responseBody with
        | .error err => { result := .error (.wrap "DeleteMailbox" err), handed := call.handed, wire := call.wire }
        | .ok response => { result := .ok response, handed := call.handed, wire := call.wire }

/-- The method `CreateMailbox`.  `send` is the part of the body after the block
`if mailbox != nil`, reached with the mailbox as the block left it. -/
def CreateMailbox {ρ : Type} (env : Env ρ) (c : MigaduClient) (domain : String)
    (mailbox : Option (Mailbox ρ)) : MailboxCall ρ :=
  match env.idn.ToASCII domain with
  | .error err =>
    { result := .error (.wrap "CreateMailbox" err), handed := [], wire := [], mailbox := mailbox, converted := [] }
  | .ok ascii =>
    let url := c.Endpoint ++ "/domains/" ++ ascii ++ "/mailboxes"
    let send := fun (mailbox : Option (Mailbox ρ)) (converted : List (List String)) =>
      match env.Marshal mailbox with
      | .error err =>
        ({ result := .error (.wrap "CreateMailbox" err), handed := [], wire := [],
           mailbox := mailbox, converted := converted } : MailboxCall ρ)
      | .ok requestBody =>
        match NewRequestWithContext env "POST" url (some requestBody) with
        | .error err =>
          { result := .error (.wrap "CreateMailbox" err), handed := [], wire := [],
            mailbox := mailbox, converted := converted }
        | .ok request =>
          let call := doRequest env.Do c request
          match call.result with
          | .error err =>
            { result := .error (.wrap "CreateMailbox" err), handed := call.handed, wire := call.wire,
              mailbox := mailbox, converted := converted }
          | .ok responseBody =>
            match env.UnmarshalMailbox responseBody with
            | .error err =>
              { result := .error (.wrap "CreateMailbox" err), handed := call.handed, wire := call.wire,
                mailbox := mailbox, converted := converted }
            | .ok response =>
              { result := .ok response, handed := call.handed, wire := call.wire,
                mailbox := mailbox, converted := converted }
    match mailbox with
    | none => send none []
    | some m =>
      match ConvertEmailsToASCII env.idn m.SenderDenyList with
      | .error err =>
        { result := .error err, handed := [], wire := [], mailbox := some m,
          converted := [m.SenderDenyList] }
      | .ok senderDenyListASCII =>
        let m1 := { m with SenderDenyList := senderDenyListASCII }
        match ConvertEmailsToASCII env.idn m1.SenderAllowList with
        | .error err =>
          { result := .error err, handed := [], wire := [], mailbox := some m1,
            converted := [m.SenderDenyList, m1.SenderAllowList] }
        | .ok senderAllowListASCII =>
          let m2 := { m1 with SenderAllowList := senderAllowListASCII }
          match ConvertEmailsToASCII env.idn m2.RecipientDenyList with
          | .error err =>
            { result := .error err, handed := [], wire := [], mailbox := some m2,
              converted := [m.SenderDenyList, m1.SenderAllowList, m2.RecipientDenyList] }
          | .ok recipientDenyListASCII =>
            let m3 := { m2 with RecipientDenyList := recipientDenyListASCII }
            send (some m3) [m.SenderDenyList, m1.SenderAllowList, m2.RecipientDenyList]

/-- The method `UpdateMailbox`.  `send` is the part of the body after the block
`if mailbox != nil`, reached with the mailbox as the block left it. -/
def UpdateMailbox {ρ : Type} (env : Env ρ) (c : MigaduClient) (domain localPart : String)
    (mailbox : Option (Mailbox ρ)) : MailboxCall ρ :=
  match env.idn.ToASCII domain with
  | .error err =>
    { result := .error (.wrap "UpdateMailbox" err), handed := [], wire := [], mailbox := mailbox, converted := [] }
  | .ok ascii =>
    let url := c.Endpoint ++ "/domains/" ++ ascii ++ "/mailboxes/" ++ localPart
    let send := fun (mailbox : Option (Mailbox ρ)) (converted : List (List String)) =>
      match env.Marshal mailbox with
      | .error err =>
        ({ result := .error (.wrap "UpdateMailbox" err), handed := [], wire := [],
           mailbox := mailbox, converted := converted } : MailboxCall ρ)
      | .ok requestBody =>
        match NewRequestWithContext env "PUT" url (some requestBody) with
        | .error err =>
          { result := .error (.wrap "UpdateMailbox" err), handed := [], wire := [],
            mailbox := mailbox, converted := converted }
        | .ok request =>
          let call := doRequest env.Do c request
          match call.result with
          | .error err =>
            { result := .error (.wrap "UpdateMailbox" err), handed := call.handed, wire := call.wire,
              mailbox := mailbox, converted := converted }
          | .ok responseBody =>
            match env.UnmarshalMailbox responseBody with
            | .error err =>
              { result := .error (.wrap "UpdateMailbox" err), handed := call.handed, wire := call.wire,
                mailbox := mailbox, converted := converted }
            | .ok response =>
              { result := .ok response, handed := call.handed, wire := call.wire,
                mailbox := mailbox, converted := converted }
    match mailbox with
    | none => send none []
    | some m =>
      match ConvertEmailsToASCII env.idn m.SenderDenyList with
      | .error err =>
        { result := .error err, handed := [], wire := [], mailbox := some m,
          converted := [m.SenderDenyList] }
      | .ok senderDenyListASCII =>
        let m1 := { m with SenderDenyList := senderDenyListASCII }
        match ConvertEmailsToASCII env.idn m1.SenderAllowList with
        | .error err =>
          { result := .error err, handed := [], wire := [], mailbox := some m1,
            converted := [m.SenderDenyList, m1.SenderAllowList] }
        | .ok senderAllowListASCII =>
          let m2 := { m1 with SenderAllowList := senderAllowListASCII }
          match ConvertEmailsToASCII env.idn m2.RecipientDenyList with
          | .error err =>
            { result := .error err, handed := [], wire := [], mailbox := some m2,
              converted := [m.SenderDenyList, m1.SenderAllowList, m2.RecipientDenyList] }
          | .ok recipientDenyListASCII =>
            let m3 := { m2 with RecipientDenyList := recipientDenyListASCII }
            send (some m3) [m.SenderDenyList, m1.SenderAllowList, m2.RecipientDenyList]

/-! ## The alias simulator (`simulator/aliases.go`) -/

/-- Modelled from the spec: `model.Alias` (the source of package `model` is
missing).  `DomainName` and `LocalPart` are the fields `handleDeleteAlias` reads;
`rest` stands for every other field of the record. -/
structure Alias (ρ : Type) where
  DomainName : String
  LocalPart : String
  rest : ρ
deriving DecidableEq, Repr

/-- The key of an alias. -/
def Alias.key {ρ : Type} (a : Alias ρ) : String × String :=
  (a.DomainName, a.LocalPart)

/-- What a handler writes to its `http.ResponseWriter`: a call of `WriteHeader`,
or a call of `writeJsonResponse` with the value it serialises. -/
inductive Write (ρ : Type) where
  | WriteHeader (status : Nat)
  | writeJsonResponse (value : Alias ρ)
deriving DecidableEq, Repr

/-- The variables of `handleDeleteAlias` during its loop: the backing array of
the slice `*aliases`, the length of `*aliases`, the flag `missing`, and what was
written to the response so far. -/
structure DeleteState (ρ : Type) where
  array : List (Alias ρ)
  len : Nat
  missing : Bool
  written : List (Write ρ)
deriving DecidableEq, Repr

/-- One iteration of `for index, alias := range *aliases`: `alias` is read from
the backing array at `index`; on a match `c := *aliases`, `c[index] = c[len(c)-1]`,
`*aliases = c[:len(c)-1]`, then status 200 and the alias are written.  `none` is a
run-time panic (index out of range) at `c[index]` or `c[len(c)-1]`; the read of
`alias` itself is always in range, the loop running below the length of the array. -/
def deleteStep {ρ : Type} (domain localPart : String) (index : Nat) (s : DeleteState ρ) :
    Option (DeleteState ρ) :=
  match s.array[index]? with
  | none => none
  | some alias' =>
    if alias'.DomainName = domain ∧ alias'.LocalPart = localPart then
      if index < s.len then
        match s.array[s.len - 1]? with
        | none => none
        | some last =>
          some { array := s.array.set index last
                 len := s.len - 1
                 missing := false
                 written := s.written ++ [.WriteHeader 200, .writeJsonResponse alias'] }
      else none
    else some s

/-- The iterations `index`, `index + 1`, ... of the loop, `count` of them. -/
def deleteLoop {ρ : Type} (domain localPart : String) :
    Nat → Nat → DeleteState ρ → Option (DeleteState ρ)
  | 0, _, s => some s
  | count + 1, index, s =>
    match deleteStep domain localPart index s with
    | none => none
    | some s => deleteLoop domain localPart count (index + 1) s

/-- What `handleDeleteAlias` leaves behind: the slice `*aliases`, the writes to
the response, and the messages given to `t.Errorf`. -/
structure Handled (ρ : Type) where
  aliases : List (Alias ρ)
  written : List (Write ρ)
  errors : List String
deriving DecidableEq, Repr

/-- The function `handleDeleteAlias`; `path` is `r.URL.Path`.  The loop runs over
the indices of the slice as it was when the loop started.  `none` is a panic. -/
def handleDeleteAlias {ρ : Type} (path : String) (aliases : List (Alias ρ))
    (domain localPart : String) : Option (Handled ρ) :=
  let errors :=
    if path ≠ "/domains/" ++ domain ++ "/aliases/" ++ localPart then
      ["Expected to request '/domains/" ++ domain ++ "/aliases/" ++ localPart
        ++ "', got: " ++ path]
    else []
  match deleteLoop domain localPart aliases.length 0
      { array := aliases, len := aliases.length, missing := true, written := [] } with
  | none => none
  | some s =>
    some { aliases := s.array.take s.len
           written := if s.missing then s.written ++ [.WriteHeader 404] else s.written
           errors := errors }

/-! ## Predicates used in the statements -/

/-- The result is an error. -/
def failed {α : Type} (r : Except GoError α) : Bool :=
  match r with
  | .error _ => true
  | .ok _ => false

/-- The request carries basic authentication made from the client's `Username`
and `Token`, and the header `Content-Type: application/json`. -/
def authorized (c : MigaduClient) (r : Request) : Prop :=
  Header.Values r.Header "Authorization"
      = ["Basic " ++ String.mk (base64 (utf8 (c.Username ++ ":" ++ c.Token)))] ∧
    Header.Values r.Header "Content-Type" = ["application/json"]

instance (c : MigaduClient) (r : Request) : Decidable (authorized c r) := by
  unfold authorized; infer_instance

/-- The request with the given method, target and body, the `Authorization` header
of basic authentication made from the client's `Username` and `Token`, and the
header `Content-Type: application/json`. -/
def authorizedRequest (c : MigaduClient) (method target : String) (body : Option Bytes) :
    Request :=
  { Method := method
    URL := target
    Header := [("Authorization",
        ["Basic " ++ String.mk (base64 (utf8 (c.Username ++ ":" ++ c.Token)))]),
      ("Content-Type", ["application/json"])]
    Body := body }

/-! ## Sample environment -/

/-- A finite fragment of `idna.ToASCII`: the values the library returns on
`hoß.de` (encoded), on `xn--*` (rejected: `*` is no punycode digit), and on plain
ASCII names such as `example.com` or `xn--ho-hia.de` (returned as they are).  It is
used at these inputs only. -/
def sampleToASCII (s : String) : Except GoError String :=
  if s = "hoß.de" then .ok "xn--ho-hia.de"
  else if s = "xn--*" then .error (.library "idna: invalid label \"*\"")
  else .ok s

/-- A sample normaliser over `sampleToASCII`. -/
def sampleIdn (choice : AtChoice) : Idn :=
  { ToASCII := sampleToASCII
    choice := choice
    missingAt := fun email => .library ("missing @ in " ++ email) }

/-- Write every space as `%20`. -/
def escapeSpaces : List Char → List Char
  | [] => []
  | c :: cs => if c = ' ' then '%' :: '2' :: '0' :: escapeSpaces cs else c :: escapeSpaces cs

/-- A finite fragment of `url.Parse` followed by `URL.String`: a target made of
ASCII letters, digits and `:/.-` comes back as it is, and a space in its path comes
back as `%20`.  It is used at such targets only. -/
def sampleParseURL (target : String) : Except GoError String :=
  .ok (String.mk (escapeSpaces target.data))

/-- A sample environment: the client sends the request it is handed, the server
answers `status` with the bytes `[123, 125]`, marshalling gives the bytes `[110]`
for nil and `[123]` otherwise, and every body decodes to the empty mailbox. -/
def answeringEnv (choice : AtChoice) (status : Int) : Env Unit :=
  { idn := sampleIdn choice
    Marshal := fun mailbox => match mailbox with
      | none => .ok [110]
      | some _ => .ok [123]
    ParseURL := sampleParseURL
    Do := fun req => { wire := [req], result := .ok { StatusCode := status, Body := .ok [123, 125] } }
    UnmarshalMailbox := fun _ => .ok ⟨[], [], [], ()⟩
    UnmarshalMailboxes := fun _ => .ok ⟨[]⟩ }

/-- The sample environment whose server answers 200. -/
def sampleEnv (choice : AtChoice) : Env Unit :=
  answeringEnv choice 200

/-- A sample environment whose server answers the first request with a redirect
to `/v1/moved` on the same host and the second with 200: the client, having no
`CheckRedirect`, sends a second request with the method `GET`, the credentials
and no `Content-Type`. -/
def redirectingEnv (choice : AtChoice) : Env Unit :=
  { sampleEnv choice with
    Do := fun req =>
      { wire := [req, { Method := "GET", URL := "https://api.migadu.com/v1/moved",
                        Header := req.Header.filter (fun kv => kv.1 != "Content-Type"),
                        Body := none }]
        result := .ok { StatusCode := 200, Body := .ok [123, 125] } } }

/-- A sample client. -/
def sampleClient : MigaduClient :=
  { HTTPClient := { Timeout := 10000000000 }
    Endpoint := "https://api.migadu.com/v1"
    Username := "username"
    Token := "token" }

end Migadu

namespace Migadu

/-! ## Transport: classification of the status code -/

/-- C1: for a response whose body was read in full, with status code `s` and body
`b`, `doRequest` returns `b` without error exactly when `s = 200`, and for every
other status it returns the `RequestError` holding exactly `s` and `b`. -/
theorem doRequest_classifies_status (Do : Request → Exchange)
    (c : MigaduClient) (req : Request) (s : Int) (b : Bytes)
    (h : (Do (prepare c req)).result = .ok { StatusCode := s, Body := .ok b }) :
    ((doRequest Do c req).result = .ok b ↔ s = 200) ∧
    (s ≠ 200 → (doRequest Do c req).result = .error (.request s b)) := by
  by_cases hs : s = 200
  · simp [doRequest, h, hs]
  · simp [doRequest, h, hs]

/-- C1, at concrete responses: status 204 with body `[1, 2]` is a request error. -/
theorem doRequest_classifies_status_witness :
    ((doRequest (fun r => ⟨[r], .ok { StatusCode := 204, Body := .ok [1, 2] }⟩) sampleClient
        { Method := "GET", URL := "u", Header := [], Body := none }).result = .ok [1, 2]
      ↔ (204 : Int) = 200) ∧
    ((204 : Int) ≠ 200 →
      (doRequest (fun r => ⟨[r], .ok { StatusCode := 204, Body := .ok [1, 2] }⟩) sampleClient
        { Method := "GET", URL := "u", Header := [], Body := none }).result
        = .error (.request 204 [1, 2])) :=
  doRequest_classifies_status (fun r => ⟨[r], .ok { StatusCode := 204, Body := .ok [1, 2] }⟩)
    sampleClient { Method := "GET", URL := "u", Header := [], Body := none } 204 [1, 2] rfl

/-! ## Construction of the client -/

/-- C5, as stated, fails: `New` accepts a supplied but empty username and token
and returns a client whose `Username` and `Token` are empty. -/
theorem New_accepts_empty_credentials :
    ∃ c, New none (some "") (some "") 0 = .ok c ∧ c.Username = "" ∧ c.Token = "" :=
  ⟨_, rfl, rfl, rfl⟩

/-- C5, amended: `New` fails whenever the username or the token pointer is nil,
and whenever it returns a client, both were supplied and the client's `Username`
and `Token` are exactly the supplied strings. -/
theorem New_keeps_supplied_credentials (endpoint username token : Option String)
    (timeout : Int) :
    ((username = none ∨ token = none) → ∃ err, New endpoint username token timeout = .error err) ∧
    (∀ c, New endpoint username token timeout = .ok c →
      username = some c.Username ∧ token = some c.Token) := by
  cases username <;> cases token <;> cases endpoint <;> simp [New]

/-- C5, amended, at the arguments of the test helper `newTestClient` and at a
missing token. -/
theorem New_keeps_supplied_credentials_witness :
    (∃ err, New (some "http://localhost") (some "username") none 10 = .error err) ∧
    (some "username" = some "username" ∧ some "token" = some "token") :=
  ⟨(New_keeps_supplied_credentials (some "http://localhost") (some "username") none 10).1
      (Or.inr rfl),
    (New_keeps_supplied_credentials (some "http://localhost") (some "username")
      (some "token") 10).2
      { HTTPClient := { Timeout := 10 }, Endpoint := "http://localhost",
        Username := "username", Token := "token" } rfl⟩

theorem doRequest_handed (Do : Request → Exchange) (c : MigaduClient)
    (req : Request) : (doRequest Do c req).handed = [prepare c req] := rfl

theorem doRequest_wire (Do : Request → Exchange) (c : MigaduClient)
    (req : Request) : (doRequest Do c req).wire = (Do (prepare c req)).wire := rfl

theorem prepare_authorized (c : MigaduClient) (method url : String) (body : Option Bytes) :
    authorized c (prepare c { Method := method, URL := url, Header := [], Body := body }) := by
  simp [authorized, prepare, Request.SetBasicAuth, Header.Set, Header.Add, Header.Values]

theorem prepare_fields (c : MigaduClient) (req : Request) :
    (prepare c req).Method = req.Method ∧ (prepare c req).URL = req.URL ∧
      (prepare c req).Body = req.Body := by
  simp [prepare, Request.SetBasicAuth]

theorem prepare_eq (c : MigaduClient) (method target : String) (body : Option Bytes) :
    prepare c { Method := method, URL := target, Header := [], Body := body }
      = authorizedRequest c method target body := by
  simp [authorizedRequest, prepare, Request.SetBasicAuth, Header.Set, Header.Add,
    Header.Values]

/-! ## Requests sent and failed normalisation -/

/-- C3, as stated, fails: against a server that answers the first request with a
redirect, `GetMailbox` calls the HTTP client once and the client sends two HTTP
requests. -/
theorem redirect_sends_second_request :
    (GetMailbox (redirectingEnv .last) sampleClient "example.com" "info").handed.length = 1 ∧
    (GetMailbox (redirectingEnv .last) sampleClient "example.com" "info").wire.length = 2 := by
  decide

/-- C3, amended: every mailbox operation calls the HTTP client at most once, the
HTTP requests sent are exactly those the client sent for that call (more than one
when it followed redirects), and when normalisation of the domain, or of one of the
three email lists of the mailbox given to `CreateMailbox` or `UpdateMailbox`,
fails, the operation returns an error, has not called the HTTP client and no HTTP
request was sent. -/
theorem normalization_failure_sends_nothing {ρ : Type} (env : Env ρ) (c : MigaduClient)
    (domain localPart : String) (mailbox : Option (Mailbox ρ)) :
    ((GetMailboxes env c domain).handed.length ≤ 1 ∧
      (GetMailbox env c domain localPart).handed.length ≤ 1 ∧
      (CreateMailbox env c domain mailbox).handed.length ≤ 1 ∧
      (UpdateMailbox env c domain localPart mailbox).handed.length ≤ 1 ∧
      (DeleteMailbox env c domain localPart).handed.length ≤ 1) ∧
    ((GetMailboxes env c domain).wire
        = (GetMailboxes env c domain).handed.flatMap (fun r => (env.Do r).wire) ∧
      (GetMailbox env c domain localPart).wire
        = (GetMailbox env c domain localPart).handed.flatMap (fun r => (env.Do r).wire) ∧
      (CreateMailbox env c domain mailbox).wire
        = (CreateMailbox env c domain mailbox).handed.flatMap (fun r => (env.Do r).wire) ∧
      (UpdateMailbox env c domain localPart mailbox).wire
        = (UpdateMailbox env c domain localPart mailbox).handed.flatMap
            (fun r => (env.Do r).wire) ∧
      (DeleteMailbox env c domain localPart).wire
        = (DeleteMailbox env c domain localPart).handed.flatMap
            (fun r => (env.Do r).wire)) ∧
    (failed (env.idn.ToASCII domain) = true →
      ((GetMailboxes env c domain).handed = [] ∧ (GetMailboxes env c domain).wire = [] ∧
        failed (GetMailboxes env c domain).result = true) ∧
      ((GetMailbox env c domain localPart).handed = [] ∧
        (GetMailbox env c domain localPart).wire = [] ∧
        failed (GetMailbox env c domain localPart).result = true) ∧
      ((CreateMailbox env c domain mailbox).handed = [] ∧
        (CreateMailbox env c domain mailbox).wire = [] ∧
        failed (CreateMailbox env c domain mailbox).result = true) ∧
      ((UpdateMailbox env c domain localPart mailbox).handed = [] ∧
        (UpdateMailbox env c domain localPart mailbox).wire = [] ∧
        failed (UpdateMailbox env c domain localPart mailbox).result = true) ∧
      ((DeleteMailbox env c domain localPart).handed = [] ∧
        (DeleteMailbox env c domain localPart).wire = [] ∧
        failed (DeleteMailbox env c domain localPart).result = true)) ∧
    (∀ m, mailbox = some m →
      (failed (ConvertEmailsToASCII env.idn m.SenderDenyList) = true ∨
        failed (ConvertEmailsToASCII env.idn m.SenderAllowList) = true ∨
        failed (ConvertEmailsToASCII env.idn m.RecipientDenyList) = true) →
      ((CreateMailbox env c domain mailbox).handed = [] ∧
        (CreateMailbox env c domain mailbox).wire = [] ∧
        failed (CreateMailbox env c domain mailbox).result = true) ∧
      ((UpdateMailbox env c domain localPart mailbox).handed = [] ∧
        (UpdateMailbox env c domain localPart mailbox).wire = [] ∧
        failed (UpdateMailbox env c domain localPart mailbox).result = true)) := by
  refine ⟨⟨?_, ?_, ?_, ?_, ?_⟩, ⟨?_, ?_, ?_, ?_, ?_⟩, ?_, ?_⟩
  · unfold GetMailboxes
    repeat' (first | split | dsimp only)
    all_goals simp [doRequest_handed]
  · unfold GetMailbox
    repeat' (first | split | dsimp only)
    all_goals simp [doRequest_handed]
  · unfold CreateMailbox
    repeat' (first | split | dsimp only)
    all_goals simp [doRequest_handed]
  · unfold UpdateMailbox
    repeat' (first | split | dsimp only)
    all_goals simp [doRequest_handed]
  · unfold DeleteMailbox
    repeat' (first | split | dsimp only)
    all_goals simp [doRequest_handed]
  · unfold GetMailboxes
    repeat' (first | split | dsimp only)
    all_goals simp [doRequest_handed, doRequest_wire]
  · unfold GetMailbox
    repeat' (first | split | dsimp only)
    all_goals simp [doRequest_handed, doRequest_wire]
  · unfold CreateMailbox
    repeat' (first | split | dsimp only)
    all_goals simp [doRequest_handed, doRequest_wire]
  · unfold UpdateMailbox
    repeat' (first | split | dsimp only)
    all_goals simp [doRequest_handed, doRequest_wire]
  · unfold DeleteMailbox
    repeat' (first | split | dsimp only)
    all_goals simp [doRequest_handed, doRequest_wire]
  · intro h
    cases hd : env.idn.ToASCII domain with
    | ok a => rw [hd] at h; simp [failed] at h
    | error err =>
      simp [GetMailboxes, GetMailbox, CreateMailbox, UpdateMailbox, DeleteMailbox, hd, failed]
  · intro m hm h
    subst hm
    refine ⟨?_, ?_⟩
    · unfold CreateMailbox
      repeat' (first | split | dsimp only)
      all_goals simp_all [failed]
    · unfold UpdateMailbox
      repeat' (first | split | dsimp only)
      all_goals simp_all [failed]

/-- C3, amended, at a domain and at a list the sample normaliser rejects. -/
theorem normalization_failure_sends_nothing_witness :
    ((GetMailboxes (sampleEnv .last) sampleClient "xn--*").handed = [] ∧
      (GetMailboxes (sampleEnv .last) sampleClient "xn--*").wire = [] ∧
      failed (GetMailboxes (sampleEnv .last) sampleClient "xn--*").result = true) ∧
    ((CreateMailbox (sampleEnv .last) sampleClient "example.com"
        (some ⟨[], ["a@xn--*"], [], ()⟩)).handed = [] ∧
      (CreateMailbox (sampleEnv .last) sampleClient "example.com"
        (some ⟨[], ["a@xn--*"], [], ()⟩)).wire = [] ∧
      failed (CreateMailbox (sampleEnv .last) sampleClient "example.com"
        (some ⟨[], ["a@xn--*"], [], ()⟩)).result = true) :=
  ⟨((normalization_failure_sends_nothing (sampleEnv .last) sampleClient "xn--*" "info"
      none).2.2.1 (by decide)).1,
    ((normalization_failure_sends_nothing (sampleEnv .last) sampleClient "example.com" "info"
      (some ⟨[], ["a@xn--*"], [], ()⟩)).2.2.2 ⟨[], ["a@xn--*"], [], ()⟩ rfl
      (Or.inr (Or.inl (by decide)))).1⟩

/-! ## Error context -/

/-- C2, evaluated where the code departs from it: with a sender deny list whose
entry has a domain `idna.ToASCII` rejects, `CreateMailbox` and `UpdateMailbox`
return the error of the conversion itself, which is not wrapped with the name of
the operation and whose message does not start with it. -/
theorem list_error_returned_without_context :
    (CreateMailbox (sampleEnv .last) sampleClient "example.com"
        (some ⟨["a@xn--*"], [], [], ()⟩)).result
      = .error (.library "idna: invalid label \"*\"") ∧
    (UpdateMailbox (sampleEnv .last) sampleClient "example.com" "info"
        (some ⟨["a@xn--*"], [], [], ()⟩)).result
      = .error (.library "idna: invalid label \"*\"") ∧
    GoError.wrappedBy "CreateMailbox" (.library "idna: invalid label \"*\"") = false ∧
    GoError.wrappedBy "UpdateMailbox" (.library "idna: invalid label \"*\"") = false ∧
    (utf8 "CreateMailbox: ").isPrefixOf
      (GoError.Error (.library "idna: invalid label \"*\"")) = false ∧
    (utf8 "UpdateMailbox: ").isPrefixOf
      (GoError.Error (.library "idna: invalid label \"*\"")) = false := by
  decide

/-- Whatever the libraries do: when the conversion of the sender deny list fails
with `err`, `CreateMailbox` and `UpdateMailbox` return `err` itself. -/
theorem list_error_returned_as_is {ρ : Type} (env : Env ρ) (c : MigaduClient)
    (domain localPart a : String) (m : Mailbox ρ) (err : GoError)
    (hd : env.idn.ToASCII domain = .ok a)
    (h : ConvertEmailsToASCII env.idn m.SenderDenyList = .error err) :
    (CreateMailbox env c domain (some m)).result = .error err ∧
      (UpdateMailbox env c domain localPart (some m)).result = .error err := by
  simp [CreateMailbox, UpdateMailbox, hd, h]

/-- Every error of the three operations without a request body carries the name
of the operation. -/
theorem read_errors_have_context {ρ : Type} (env : Env ρ) (c : MigaduClient)
    (domain localPart : String) :
    (∀ err, (GetMailboxes env c domain).result = .error err →
      err.wrappedBy "GetMailboxes" = true) ∧
    (∀ err, (GetMailbox env c domain localPart).result = .error err →
      err.wrappedBy "GetMailbox" = true) ∧
    (∀ err, (DeleteMailbox env c domain localPart).result = .error err →
      err.wrappedBy "DeleteMailbox" = true) := by
  refine ⟨?_, ?_, ?_⟩
  · unfold GetMailboxes
    repeat' (first | split | dsimp only)
    all_goals simp [GoError.wrappedBy]
  · unfold GetMailbox
    repeat' (first | split | dsimp only)
    all_goals simp [GoError.wrappedBy]
  · unfold DeleteMailbox
    repeat' (first | split | dsimp only)
    all_goals simp [GoError.wrappedBy]

/-- Every error of `CreateMailbox` and `UpdateMailbox` that comes from another
step than the conversion of an email list carries the name of the operation:
without a mailbox, or with three lists that convert, each error is wrapped. -/
theorem write_errors_have_context {ρ : Type} (env : Env ρ) (c : MigaduClient)
    (domain localPart : String) (mailbox : Option (Mailbox ρ))
    (h : ∀ m, mailbox = some m →
      failed (ConvertEmailsToASCII env.idn m.SenderDenyList) = false ∧
      failed (ConvertEmailsToASCII env.idn m.SenderAllowList) = false ∧
      failed (ConvertEmailsToASCII env.idn m.RecipientDenyList) = false) :
    (∀ err, (CreateMailbox env c domain mailbox).result = .error err →
      err.wrappedBy "CreateMailbox" = true) ∧
    (∀ err, (UpdateMailbox env c domain localPart mailbox).result = .error err →
      err.wrappedBy "UpdateMailbox" = true) := by
  refine ⟨?_, ?_⟩
  · unfold CreateMailbox
    repeat' (first | split | dsimp only)
    all_goals simp_all [GoError.wrappedBy, failed]
  · unfold UpdateMailbox
    repeat' (first | split | dsimp only)
    all_goals simp_all [GoError.wrappedBy, failed]

/-! ## The request an operation hands to the HTTP client -/

/-- C4, as stated, fails: the local part `a b` is put into the target string as it
is, and the request `GetMailbox` hands to the HTTP client goes to the parsed
target, which ends in `a%20b`; and when the server redirects, a second request is
sent, without `Content-Type`. -/
theorem request_target_is_parsed :
    (GetMailbox (sampleEnv .last) sampleClient "example.com" "a b").handed.map (fun r => r.URL)
      = ["https://api.migadu.com/v1/domains/example.com/mailboxes/a%20b"] ∧
    (GetMailbox (sampleEnv .last) sampleClient "example.com" "a b").handed.map (fun r => r.URL)
      ≠ [sampleClient.Endpoint ++ "/domains/" ++ "example.com" ++ "/mailboxes/" ++ "a b"] ∧
    (GetMailbox (redirectingEnv .last) sampleClient "example.com" "info").wire.map
        (fun r => Header.Values r.Header "Content-Type")
      = [["application/json"], []] := by
  decide

/-- C4, amended: when the domain converts to `a`, an operation builds the target
string `Endpoint/domains/a/mailboxes` (`GetMailboxes`, `CreateMailbox`) or
`Endpoint/domains/a/mailboxes/localPart` (`GetMailbox`, `UpdateMailbox`,
`DeleteMailbox`), the local part put in as given; when the library parses that
string to the target `u` (and, for `CreateMailbox` and `UpdateMailbox`, the lists
convert and the mailbox serialises to `body`), the operation hands the HTTP client
exactly one request, whatever the server answers: method `GET`, `GET`, `POST`,
`PUT`, `DELETE`, target `u`, basic authentication made from `Username` and `Token`,
`Content-Type: application/json`, and the body `body` or none; when the string does
not parse, it hands over nothing. -/
theorem mailbox_requests {ρ : Type} (env : Env ρ) (c : MigaduClient)
    (domain localPart : String) (mailbox : Option (Mailbox ρ)) (a : String)
    (h : env.idn.ToASCII domain = .ok a) :
    (∀ method u body,
      authorized c (authorizedRequest c method u body) ∧
        (authorizedRequest c method u body).Method = method ∧
        (authorizedRequest c method u body).URL = u ∧
        (authorizedRequest c method u body).Body = body) ∧
    (∀ u, env.ParseURL (c.Endpoint ++ "/domains/" ++ a ++ "/mailboxes") = .ok u →
      (GetMailboxes env c domain).handed = [authorizedRequest c "GET" u none]) ∧
    (∀ u, env.ParseURL (c.Endpoint ++ "/domains/" ++ a ++ "/mailboxes/" ++ localPart) = .ok u →
      (GetMailbox env c domain localPart).handed = [authorizedRequest c "GET" u none]) ∧
    (∀ u, env.ParseURL (c.Endpoint ++ "/domains/" ++ a ++ "/mailboxes/" ++ localPart) = .ok u →
      (DeleteMailbox env c domain localPart).handed = [authorizedRequest c "DELETE" u none]) ∧
    ((∀ m, mailbox = some m →
        failed (ConvertEmailsToASCII env.idn m.SenderDenyList) = false ∧
        failed (ConvertEmailsToASCII env.idn m.SenderAllowList) = false ∧
        failed (ConvertEmailsToASCII env.idn m.RecipientDenyList) = false) →
      (∀ u body, env.ParseURL (c.Endpoint ++ "/domains/" ++ a ++ "/mailboxes") = .ok u →
        env.Marshal (CreateMailbox env c domain mailbox).mailbox = .ok body →
        (CreateMailbox env c domain mailbox).handed
          = [authorizedRequest c "POST" u (some body)]) ∧
      (∀ u body,
        env.ParseURL (c.Endpoint ++ "/domains/" ++ a ++ "/mailboxes/" ++ localPart) = .ok u →
        env.Marshal (UpdateMailbox env c domain localPart mailbox).mailbox = .ok body →
        (UpdateMailbox env c domain localPart mailbox).handed
          = [authorizedRequest c "PUT" u (some body)])) ∧
    (failed (env.ParseURL (c.Endpoint ++ "/domains/" ++ a ++ "/mailboxes")) = true →
      (GetMailboxes env c domain).handed = [] ∧
        (CreateMailbox env c domain mailbox).handed = []) ∧
    (failed (env.ParseURL (c.Endpoint ++ "/domains/" ++ a ++ "/mailboxes/" ++ localPart))
        = true →
      (GetMailbox env c domain localPart).handed = [] ∧
        (UpdateMailbox env c domain localPart mailbox).handed = [] ∧
        (DeleteMailbox env c domain localPart).handed = []) := by
  refine ⟨?_, ?_, ?_, ?_, ?_, ?_, ?_⟩
  · intro method u body
    simp [authorized, authorizedRequest, Header.Values]
  · intro u hu
    simp only [GetMailboxes, NewRequestWithContext, h, hu]
    repeat' (first | split | dsimp only)
    all_goals simp [doRequest_handed, prepare_eq]
  · intro u hu
    simp only [GetMailbox, NewRequestWithContext, h, hu]
    repeat' (first | split | dsimp only)
    all_goals simp [doRequest_handed, prepare_eq]
  · intro u hu
    simp only [DeleteMailbox, NewRequestWithContext, h, hu]
    repeat' (first | split | dsimp only)
    all_goals simp [doRequest_handed, prepare_eq]
  · intro hl
    refine ⟨?_, ?_⟩
    · intro u body hu
      simp only [CreateMailbox, NewRequestWithContext, h, hu]
      repeat' (first | split | dsimp only)
      all_goals simp_all [doRequest_handed, prepare_eq, failed]
    · intro u body hu
      simp only [UpdateMailbox, NewRequestWithContext, h, hu]
      repeat' (first | split | dsimp only)
      all_goals simp_all [doRequest_handed, prepare_eq, failed]
  · intro hp
    cases hu : env.ParseURL (c.Endpoint ++ "/domains/" ++ a ++ "/mailboxes") with
    | ok u => rw [hu] at hp; simp [failed] at hp
    | error err =>
      refine ⟨?_, ?_⟩
      · simp [GetMailboxes, NewRequestWithContext, h, hu]
      · simp only [CreateMailbox, NewRequestWithContext, h, hu]
        repeat' (first | split | dsimp only)
  · intro hp
    cases hu : env.ParseURL (c.Endpoint ++ "/domains/" ++ a ++ "/mailboxes/" ++ localPart) with
    | ok u => rw [hu] at hp; simp [failed] at hp
    | error err =>
      refine ⟨?_, ?_, ?_⟩
      · simp [GetMailbox, NewRequestWithContext, h, hu]
      · simp only [UpdateMailbox, NewRequestWithContext, h, hu]
        repeat' (first | split | dsimp only)
      · simp [DeleteMailbox, NewRequestWithContext, h, hu]

/-- C4, amended, at the sample client, the domain `hoß.de` and a server that
answers 404: each operation fails and has handed over its request. -/
theorem mailbox_requests_witness :
    ((answeringEnv .last 404).idn.ToASCII "hoß.de" = .ok "xn--ho-hia.de" ∧
      (answeringEnv .last 404).ParseURL
          (sampleClient.Endpoint ++ "/domains/" ++ "xn--ho-hia.de" ++ "/mailboxes")
        = .ok "https://api.migadu.com/v1/domains/xn--ho-hia.de/mailboxes" ∧
      (answeringEnv .last 404).ParseURL
          (sampleClient.Endpoint ++ "/domains/" ++ "xn--ho-hia.de" ++ "/mailboxes/" ++ "a b")
        = .ok "https://api.migadu.com/v1/domains/xn--ho-hia.de/mailboxes/a%20b") ∧
    (failed (GetMailboxes (answeringEnv .last 404) sampleClient "hoß.de").result = true ∧
      (GetMailboxes (answeringEnv .last 404) sampleClient "hoß.de").handed
        = [authorizedRequest sampleClient "GET"
            "https://api.migadu.com/v1/domains/xn--ho-hia.de/mailboxes" none]) ∧
    (GetMailbox (answeringEnv .last 404) sampleClient "hoß.de" "a b").handed
      = [authorizedRequest sampleClient "GET"
          "https://api.migadu.com/v1/domains/xn--ho-hia.de/mailboxes/a%20b" none] ∧
    (DeleteMailbox (answeringEnv .last 404) sampleClient "hoß.de" "a b").handed
      = [authorizedRequest sampleClient "DELETE"
          "https://api.migadu.com/v1/domains/xn--ho-hia.de/mailboxes/a%20b" none] ∧
    (CreateMailbox (answeringEnv .last 404) sampleClient "hoß.de"
        (some ⟨["a@hoß.de"], [], [], ()⟩)).handed
      = [authorizedRequest sampleClient "POST"
          "https://api.migadu.com/v1/domains/xn--ho-hia.de/mailboxes" (some [123])] ∧
    (UpdateMailbox (answeringEnv .last 404) sampleClient "hoß.de" "a b" none).handed
      = [authorizedRequest sampleClient "PUT"
          "https://api.migadu.com/v1/domains/xn--ho-hia.de/mailboxes/a%20b" (some [110])] ∧
    Header.Values (authorizedRequest sampleClient "DELETE" "u" none).Header "Authorization"
      = ["Basic dXNlcm5hbWU6dG9rZW4="] :=
  ⟨by decide,
    ⟨by decide,
      (mailbox_requests (answeringEnv .last 404) sampleClient "hoß.de" "a b" none
        "xn--ho-hia.de" (by decide)).2.1 _ (by decide)⟩,
    (mailbox_requests (answeringEnv .last 404) sampleClient "hoß.de" "a b" none
      "xn--ho-hia.de" (by decide)).2.2.1 _ (by decide),
    (mailbox_requests (answeringEnv .last 404) sampleClient "hoß.de" "a b" none
      "xn--ho-hia.de" (by decide)).2.2.2.1 _ (by decide),
    ((mailbox_requests (answeringEnv .last 404) sampleClient "hoß.de" "a b"
      (some ⟨["a@hoß.de"], [], [], ()⟩) "xn--ho-hia.de" (by decide)).2.2.2.2.1
      (by decide)).1 _ _ (by decide) (by decide),
    ((mailbox_requests (answeringEnv .last 404) sampleClient "hoß.de" "a b" none
      "xn--ho-hia.de" (by decide)).2.2.2.2.1 (by decide)).2 _ _ (by decide) (by decide),
    by decide⟩

/-! ## Normalisation of the mailbox before it is sent -/

/-- C8: when the domain and the three email lists of a mailbox convert,
`CreateMailbox` and `UpdateMailbox` leave the caller's mailbox with each of the
three lists replaced by its converted form and every other field as it was, and
the body of the request they hand to the HTTP client is the serialisation of that
mailbox; without a mailbox no conversion is called and the body is the
serialisation of nil. -/
theorem mailbox_normalized_before_send {ρ : Type} (env : Env ρ) (c : MigaduClient)
    (domain localPart : String) (m : Mailbox ρ) (a : String) (l1 l2 l3 : List String)
    (hd : env.idn.ToASCII domain = .ok a)
    (h1 : ConvertEmailsToASCII env.idn m.SenderDenyList = .ok l1)
    (h2 : ConvertEmailsToASCII env.idn m.SenderAllowList = .ok l2)
    (h3 : ConvertEmailsToASCII env.idn m.RecipientDenyList = .ok l3) :
    ((CreateMailbox env c domain (some m)).mailbox
        = some ⟨l1, l2, l3, m.rest⟩ ∧
      (∀ r ∈ (CreateMailbox env c domain (some m)).handed, ∃ body, r.Body = some body ∧
        env.Marshal (some ⟨l1, l2, l3, m.rest⟩) = .ok body) ∧
      (∀ body, env.Marshal (some ⟨l1, l2, l3, m.rest⟩) = .ok body →
        failed (env.ParseURL (c.Endpoint ++ "/domains/" ++ a ++ "/mailboxes")) = false →
        (CreateMailbox env c domain (some m)).handed.length = 1)) ∧
    ((UpdateMailbox env c domain localPart (some m)).mailbox
        = some ⟨l1, l2, l3, m.rest⟩ ∧
      (∀ r ∈ (UpdateMailbox env c domain localPart (some m)).handed, ∃ body,
        r.Body = some body ∧
        env.Marshal (some ⟨l1, l2, l3, m.rest⟩) = .ok body) ∧
      (∀ body, env.Marshal (some ⟨l1, l2, l3, m.rest⟩) = .ok body →
        failed (env.ParseURL
          (c.Endpoint ++ "/domains/" ++ a ++ "/mailboxes/" ++ localPart)) = false →
        (UpdateMailbox env c domain localPart (some m)).handed.length = 1)) ∧
    ((CreateMailbox env c domain none).mailbox = none ∧
      (CreateMailbox env c domain none).converted = [] ∧
      (∀ r ∈ (CreateMailbox env c domain none).handed, ∃ body, r.Body = some body ∧
        env.Marshal none = .ok body) ∧
      (∀ body, env.Marshal none = .ok body →
        failed (env.ParseURL (c.Endpoint ++ "/domains/" ++ a ++ "/mailboxes")) = false →
        (CreateMailbox env c domain none).handed.length = 1)) ∧
    ((UpdateMailbox env c domain localPart none).mailbox = none ∧
      (UpdateMailbox env c domain localPart none).converted = [] ∧
      (∀ r ∈ (UpdateMailbox env c domain localPart none).handed, ∃ body, r.Body = some body ∧
        env.Marshal none = .ok body) ∧
      (∀ body, env.Marshal none = .ok body →
        failed (env.ParseURL
          (c.Endpoint ++ "/domains/" ++ a ++ "/mailboxes/" ++ localPart)) = false →
        (UpdateMailbox env c domain localPart none).handed.length = 1)) := by
  have hb := fun req => (prepare_fields c req).2.2
  refine ⟨⟨?_, ?_, ?_⟩, ⟨?_, ?_, ?_⟩, ⟨?_, ?_, ?_, ?_⟩, ⟨?_, ?_, ?_, ?_⟩⟩
  all_goals simp only [CreateMailbox, UpdateMailbox, NewRequestWithContext, hd, h1, h2, h3]
  all_goals generalize env.ParseURL _ = pu
  all_goals cases pu <;> repeat' (first | split | dsimp only)
  all_goals simp only [Except.ok.injEq, reduceCtorEq] at *
  all_goals subst_vars
  all_goals simp_all [doRequest_handed, failed]

/-- C8, at a mailbox with one Unicode address in its sender deny list. -/
theorem mailbox_normalized_before_send_witness :
    ((sampleEnv .last).idn.ToASCII "hoß.de" = .ok "xn--ho-hia.de" ∧
      ConvertEmailsToASCII (sampleEnv .last).idn ["a@hoß.de"] = .ok ["a@xn--ho-hia.de"] ∧
      ConvertEmailsToASCII (sampleEnv .last).idn ["b@example.com"] = .ok ["b@example.com"] ∧
      ConvertEmailsToASCII (sampleEnv .last).idn [] = .ok []) ∧
    (CreateMailbox (sampleEnv .last) sampleClient "hoß.de"
        (some ⟨["a@hoß.de"], ["b@example.com"], [], ()⟩)).mailbox
      = some ⟨["a@xn--ho-hia.de"], ["b@example.com"], [], ()⟩ ∧
    (CreateMailbox (sampleEnv .last) sampleClient "hoß.de"
        (some ⟨["a@hoß.de"], ["b@example.com"], [], ()⟩)).handed.length = 1 :=
  ⟨by decide,
    (mailbox_normalized_before_send (sampleEnv .last) sampleClient "hoß.de" "info"
      ⟨["a@hoß.de"], ["b@example.com"], [], ()⟩ "xn--ho-hia.de"
      ["a@xn--ho-hia.de"] ["b@example.com"] [] (by decide) (by decide) (by decide)
      (by decide)).1.1,
    (mailbox_normalized_before_send (sampleEnv .last) sampleClient "hoß.de" "info"
      ⟨["a@hoß.de"], ["b@example.com"], [], ()⟩ "xn--ho-hia.de"
      ["a@xn--ho-hia.de"] ["b@example.com"] [] (by decide) (by decide) (by decide)
      (by decide)).1.2.2 [123] (by decide) (by decide)⟩

/-! ## The mailbox after a failed normalisation -/

/-- C9, as stated, fails: when the sender deny list converts and the sender allow
list does not, `CreateMailbox` and `UpdateMailbox` return the conversion error
and the caller's mailbox already holds the converted sender deny list. -/
theorem failed_normalization_leaves_converted_list :
    failed (ConvertEmailsToASCII (sampleEnv .last).idn ["b@xn--*"]) = true ∧
    failed (CreateMailbox (sampleEnv .last) sampleClient "example.com"
        (some ⟨["a@hoß.de"], ["b@xn--*"], [], ()⟩)).result = true ∧
    (CreateMailbox (sampleEnv .last) sampleClient "example.com"
        (some ⟨["a@hoß.de"], ["b@xn--*"], [], ()⟩)).mailbox
      = some ⟨["a@xn--ho-hia.de"], ["b@xn--*"], [], ()⟩ ∧
    (CreateMailbox (sampleEnv .last) sampleClient "example.com"
        (some ⟨["a@hoß.de"], ["b@xn--*"], [], ()⟩)).mailbox
      ≠ some ⟨["a@hoß.de"], ["b@xn--*"], [], ()⟩ ∧
    (UpdateMailbox (sampleEnv .last) sampleClient "example.com" "info"
        (some ⟨["a@hoß.de"], ["b@xn--*"], [], ()⟩)).mailbox
      ≠ some ⟨["a@hoß.de"], ["b@xn--*"], [], ()⟩ := by
  decide

/-- C9, amended: when `CreateMailbox` or `UpdateMailbox` stops at a normalisation
error, the caller's mailbox is as passed in if the domain or the sender deny list
failed; it holds the converted sender deny list if the sender allow list failed;
and the converted sender deny and allow lists if the recipient deny list failed.
The failing list, the lists after it and every other field are as passed in, and
the lists after the failing one were not given to the conversion. -/
theorem failed_normalization_mailbox_state {ρ : Type} (env : Env ρ) (c : MigaduClient)
    (domain localPart : String) (m : Mailbox ρ) :
    (failed (env.idn.ToASCII domain) = true →
      (CreateMailbox env c domain (some m)).mailbox = some m ∧
      (UpdateMailbox env c domain localPart (some m)).mailbox = some m) ∧
    (failed (env.idn.ToASCII domain) = false →
      (failed (ConvertEmailsToASCII env.idn m.SenderDenyList) = true →
        ((CreateMailbox env c domain (some m)).mailbox = some m ∧
          (CreateMailbox env c domain (some m)).converted = [m.SenderDenyList]) ∧
        ((UpdateMailbox env c domain localPart (some m)).mailbox = some m ∧
          (UpdateMailbox env c domain localPart (some m)).converted = [m.SenderDenyList])) ∧
      (∀ l1, ConvertEmailsToASCII env.idn m.SenderDenyList = .ok l1 →
        failed (ConvertEmailsToASCII env.idn m.SenderAllowList) = true →
        ((CreateMailbox env c domain (some m)).mailbox
            = some ⟨l1, m.SenderAllowList, m.RecipientDenyList, m.rest⟩ ∧
          (CreateMailbox env c domain (some m)).converted
            = [m.SenderDenyList, m.SenderAllowList]) ∧
        ((UpdateMailbox env c domain localPart (some m)).mailbox
            = some ⟨l1, m.SenderAllowList, m.RecipientDenyList, m.rest⟩ ∧
          (UpdateMailbox env c domain localPart (some m)).converted
            = [m.SenderDenyList, m.SenderAllowList])) ∧
      (∀ l1 l2, ConvertEmailsToASCII env.idn m.SenderDenyList = .ok l1 →
        ConvertEmailsToASCII env.idn m.SenderAllowList = .ok l2 →
        failed (ConvertEmailsToASCII env.idn m.RecipientDenyList) = true →
        (CreateMailbox env c domain (some m)).mailbox
            = some ⟨l1, l2, m.RecipientDenyList, m.rest⟩ ∧
        (UpdateMailbox env c domain localPart (some m)).mailbox
            = some ⟨l1, l2, m.RecipientDenyList, m.rest⟩)) := by
  refine ⟨?_, ?_⟩
  · intro h
    cases hd : env.idn.ToASCII domain with
    | ok a => rw [hd] at h; simp [failed] at h
    | error err => simp [CreateMailbox, UpdateMailbox, hd]
  · intro h
    cases hd : env.idn.ToASCII domain with
    | error err => rw [hd] at h; simp [failed] at h
    | ok a =>
      refine ⟨?_, ?_, ?_⟩
      · intro h1
        cases hc : ConvertEmailsToASCII env.idn m.SenderDenyList with
        | ok l => rw [hc] at h1; simp [failed] at h1
        | error err => simp [CreateMailbox, UpdateMailbox, hd, hc]
      · intro l1 h1 h2
        cases hc : ConvertEmailsToASCII env.idn m.SenderAllowList with
        | ok l => rw [hc] at h2; simp [failed] at h2
        | error err => simp [CreateMailbox, UpdateMailbox, hd, h1, hc]
      · intro l1 l2 h1 h2 h3
        cases hc : ConvertEmailsToASCII env.idn m.RecipientDenyList with
        | ok l => rw [hc] at h3; simp [failed] at h3
        | error err => simp [CreateMailbox, UpdateMailbox, hd, h1, h2, hc]

/-- C9, amended, at a mailbox whose sender allow list is rejected. -/
theorem failed_normalization_mailbox_state_witness :
    (failed ((sampleEnv .last).idn.ToASCII "example.com") = false ∧
      ConvertEmailsToASCII (sampleEnv .last).idn ["a@hoß.de"] = .ok ["a@xn--ho-hia.de"] ∧
      failed (ConvertEmailsToASCII (sampleEnv .last).idn ["b@xn--*"]) = true) ∧
    (CreateMailbox (sampleEnv .last) sampleClient "example.com"
        (some ⟨["a@hoß.de"], ["b@xn--*"], ["c@hoß.de"], ()⟩)).mailbox
      = some ⟨["a@xn--ho-hia.de"], ["b@xn--*"], ["c@hoß.de"], ()⟩ :=
  ⟨by decide,
    (((failed_normalization_mailbox_state (sampleEnv .last) sampleClient "example.com" "info"
      ⟨["a@hoß.de"], ["b@xn--*"], ["c@hoß.de"], ()⟩).2 (by decide)).2.1
      ["a@xn--ho-hia.de"] (by decide) (by decide)).1.1⟩

/-! ## Conversion of address lists -/

theorem splitFirstAt_some (cs l d : List Char) (h : splitFirstAt cs = some (l, d)) :
    cs = l ++ '@' :: d := by
  induction cs generalizing l with
  | nil => simp [splitFirstAt] at h
  | cons c cs ih =>
    unfold splitFirstAt at h
    split at h
    · rename_i hc
      cases h
      simp [hc]
    · split at h
      · rename_i l0 d0 h0
        cases h
        simp [ih l0 h0]
      · cases h

theorem splitFirstAt_none (cs : List Char) : splitFirstAt cs = none ↔ '@' ∉ cs := by
  induction cs with
  | nil => simp [splitFirstAt]
  | cons c cs ih =>
    unfold splitFirstAt
    by_cases hc : c = '@'
    · simp [hc]
    · cases h0 : splitFirstAt cs with
      | none => simp [hc, Ne.symm hc, ← ih, h0]
      | some p =>
        have : ¬ ('@' ∉ cs) := fun hn => by rw [← ih, h0] at hn; cases hn
        simp [hc, this]

theorem splitLastAt_some (cs l d : List Char) (h : splitLastAt cs = some (l, d)) :
    cs = l ++ '@' :: d := by
  unfold splitLastAt at h
  split at h
  · rename_i d0 l0 h0
    cases h
    have := congrArg List.reverse (splitFirstAt_some _ _ _ h0)
    simpa using this
  · cases h

theorem splitLastAt_none (cs : List Char) : splitLastAt cs = none ↔ '@' ∉ cs := by
  unfold splitLastAt
  cases h0 : splitFirstAt cs.reverse with
  | none => simpa using (splitFirstAt_none cs.reverse).1 h0
  | some p =>
    have : ¬ ('@' ∉ cs.reverse) := fun hn => by rw [← splitFirstAt_none, h0] at hn; cases hn
    simpa using this

theorem splitEmail_some (choice : AtChoice) (email l d : String)
    (h : splitEmail choice email = some (l, d)) : email = l ++ "@" ++ d := by
  apply String.ext
  cases choice with
  | first =>
    simp only [splitEmail, Option.map_eq_some', Prod.mk.injEq] at h
    obtain ⟨p, hp, rfl, rfl⟩ := h
    simp [splitFirstAt_some _ _ _ hp]
  | last =>
    simp only [splitEmail, Option.map_eq_some', Prod.mk.injEq] at h
    obtain ⟨p, hp, rfl, rfl⟩ := h
    simp [splitLastAt_some _ _ _ hp]

theorem splitEmail_none (choice : AtChoice) (email : String) :
    splitEmail choice email = none ↔ '@' ∉ email.data := by
  cases choice with
  | first => simp [splitEmail, splitFirstAt_none]
  | last => simp [splitEmail, splitLastAt_none]

theorem ConvertEmailsToASCII_cons_ok (idn : Idn) (email : String) (emails out : List String)
    (h : ConvertEmailsToASCII idn (email :: emails) = .ok out) :
    ∃ localPart domain ascii rest, splitEmail idn.choice email = some (localPart, domain) ∧
      idn.ToASCII domain = .ok ascii ∧ ConvertEmailsToASCII idn emails = .ok rest ∧
      out = (localPart ++ "@" ++ ascii) :: rest := by
  unfold ConvertEmailsToASCII at h
  split at h
  · cases h
  · rename_i localPart domain hs
    split at h
    · cases h
    · rename_i ascii ha
      split at h
      · cases h
      · rename_i rest hr
        cases h
        exact ⟨localPart, domain, ascii, rest, hs, ha, hr, rfl⟩

theorem ConvertEmailsToASCII_length (idn : Idn) (emails out : List String)
    (h : ConvertEmailsToASCII idn emails = .ok out) : out.length = emails.length := by
  induction emails generalizing out with
  | nil =>
    simp [ConvertEmailsToASCII] at h
    simp [← h]
  | cons email emails ih =>
    obtain ⟨_, _, _, rest, _, _, hr, rfl⟩ := ConvertEmailsToASCII_cons_ok idn email emails out h
    simp [ih rest hr]

theorem ConvertEmailsToASCII_get (idn : Idn) (emails out : List String)
    (h : ConvertEmailsToASCII idn emails = .ok out) (i : Nat) (email : String)
    (hi : emails[i]? = some email) :
    ∃ localPart domain ascii, splitEmail idn.choice email = some (localPart, domain) ∧
      idn.ToASCII domain = .ok ascii ∧ out[i]? = some (localPart ++ "@" ++ ascii) := by
  induction emails generalizing out i with
  | nil => simp at hi
  | cons e emails ih =>
    obtain ⟨l, d, a, rest, hs, ha, hr, rfl⟩ := ConvertEmailsToASCII_cons_ok idn e emails out h
    cases i with
    | zero =>
      simp at hi
      subst hi
      exact ⟨l, d, a, hs, ha, by simp⟩
    | succ i =>
      simp at hi
      simpa using ih rest hr i hi

theorem ConvertEmailsToASCII_fixed (idn : Idn) (emails : List String)
    (hat : ∀ email ∈ emails, '@' ∈ email.data)
    (hfix : ∀ email ∈ emails, ∀ l d, splitEmail idn.choice email = some (l, d) →
      idn.ToASCII d = .ok d) :
    ConvertEmailsToASCII idn emails = .ok emails := by
  induction emails with
  | nil => rfl
  | cons email emails ih =>
    unfold ConvertEmailsToASCII
    cases hs : splitEmail idn.choice email with
    | none =>
      have := (splitEmail_none idn.choice email).1 hs
      exact absurd (hat email (List.mem_cons_self _ _)) this
    | some p =>
      obtain ⟨l, d⟩ := p
      have hd := hfix email (List.mem_cons_self _ _) l d hs
      have hrest := ih (fun e he => hat e (List.mem_cons_of_mem _ he))
        (fun e he => hfix e (List.mem_cons_of_mem _ he))
      simp only [hd, hrest]
      rw [← splitEmail_some idn.choice email l d hs]

theorem ConvertEmailsToASCII_failed (idn : Idn) (emails : List String) (email : String)
    (hmem : email ∈ emails)
    (hbad : splitEmail idn.choice email = none ∨
      ∃ l d, splitEmail idn.choice email = some (l, d) ∧ failed (idn.ToASCII d) = true) :
    failed (ConvertEmailsToASCII idn emails) = true := by
  induction emails with
  | nil => cases hmem
  | cons e emails ih =>
    unfold ConvertEmailsToASCII
    rcases List.mem_cons.1 hmem with rfl | hin
    · rcases hbad with hn | ⟨l, d, hs, hf⟩
      · simp [hn, failed]
      · simp only [hs]
        cases ha : idn.ToASCII d with
        | error err => simp [failed]
        | ok a => rw [ha] at hf; simp [failed] at hf
    · have := ih hin
      repeat' (first | split | dsimp only)
      all_goals simp_all [failed]


theorem splitEmail_test (choice : AtChoice) :
    splitEmail choice "test@hoß.de" = some ("test", "hoß.de") ∧
    splitEmail choice "test@example.com" = some ("test", "example.com") := by
  cases choice <;> decide

/-- C6: when `ConvertEmailsToASCII` succeeds, the output has the length of the
input and its entry at each index is the local part of the input entry at that
index, `@`, and the ASCII form of its domain part, where the input entry is its
local part, `@` and its domain part; `test@hoß.de, test@example.com` gives
`test@xn--ho-hia.de, test@example.com` when the library encodes `hoß.de` so and
leaves `example.com`; and a list whose domains the library leaves as they are is
returned unchanged. -/
theorem ConvertEmailsToASCII_pointwise (idn : Idn) (emails out : List String)
    (h : ConvertEmailsToASCII idn emails = .ok out) :
    out.length = emails.length ∧
    (∀ (i : Nat) (email : String), emails[i]? = some email →
      ∃ localPart domain ascii, email = localPart ++ "@" ++ domain ∧
        splitEmail idn.choice email = some (localPart, domain) ∧
        idn.ToASCII domain = .ok ascii ∧ out[i]? = some (localPart ++ "@" ++ ascii)) ∧
    (emails = ["test@hoß.de", "test@example.com"] →
      idn.ToASCII "hoß.de" = .ok "xn--ho-hia.de" →
      idn.ToASCII "example.com" = .ok "example.com" →
      out = ["test@xn--ho-hia.de", "test@example.com"]) ∧
    ((∀ email ∈ emails, ∀ localPart domain,
        splitEmail idn.choice email = some (localPart, domain) →
        idn.ToASCII domain = .ok domain) → out = emails) := by
  refine ⟨ConvertEmailsToASCII_length idn emails out h, ?_, ?_, ?_⟩
  · intro i email hi
    obtain ⟨l, d, a, hs, ha, ho⟩ := ConvertEmailsToASCII_get idn emails out h i email hi
    exact ⟨l, d, a, splitEmail_some _ _ _ _ hs, hs, ha, ho⟩
  · intro he h1 h2
    subst he
    have ht := splitEmail_test idn.choice
    simp only [ConvertEmailsToASCII, ht.1, ht.2, h1, h2, Except.ok.injEq] at h
    rw [← h]
    decide
  · intro hfix
    have hat : ∀ email ∈ emails, '@' ∈ email.data := by
      intro email he
      by_contra hn
      have hbad := ConvertEmailsToASCII_failed idn emails email he
        (Or.inl ((splitEmail_none _ _).2 hn))
      rw [h] at hbad
      simp [failed] at hbad
    have := ConvertEmailsToASCII_fixed idn emails hat hfix
    rw [h] at this
    exact Except.ok.inj this

/-- C6, at the list of the test case `mixed`. -/
theorem ConvertEmailsToASCII_pointwise_witness :
    ConvertEmailsToASCII (sampleIdn .first) ["test@hoß.de", "test@example.com"]
      = .ok ["test@xn--ho-hia.de", "test@example.com"] ∧
    ["test@xn--ho-hia.de", "test@example.com"].length
      = ["test@hoß.de", "test@example.com"].length :=
  ⟨by decide,
    (ConvertEmailsToASCII_pointwise (sampleIdn .first) ["test@hoß.de", "test@example.com"]
      ["test@xn--ho-hia.de", "test@example.com"] (by decide)).1⟩

/-- C7: a list with an entry that has no `@`, or whose domain part the library
fails to encode, makes `ConvertEmailsToASCII` return an error and no list. -/
theorem ConvertEmailsToASCII_malformed (idn : Idn) (emails : List String) (email : String)
    (hmem : email ∈ emails)
    (hbad : '@' ∉ email.data ∨
      ∃ localPart domain, splitEmail idn.choice email = some (localPart, domain) ∧
        failed (idn.ToASCII domain) = true) :
    failed (ConvertEmailsToASCII idn emails) = true ∧
      ∀ out, ConvertEmailsToASCII idn emails ≠ .ok out := by
  have hf : failed (ConvertEmailsToASCII idn emails) = true := by
    apply ConvertEmailsToASCII_failed idn emails email hmem
    rcases hbad with hn | hd
    · exact Or.inl ((splitEmail_none _ _).2 hn)
    · exact Or.inr hd
  refine ⟨hf, ?_⟩
  intro out ho
  rw [ho] at hf
  simp [failed] at hf

/-- C7, at a list whose second entry has no `@`. -/
theorem ConvertEmailsToASCII_malformed_witness :
    ("broken" ∈ ["test@hoß.de", "broken"] ∧ '@' ∉ "broken".data) ∧
    failed (ConvertEmailsToASCII (sampleIdn .last) ["test@hoß.de", "broken"]) = true :=
  ⟨by decide,
    (ConvertEmailsToASCII_malformed (sampleIdn .last) ["test@hoß.de", "broken"] "broken"
      (by decide) (Or.inl (by decide))).1⟩

/-! ## Deletion in the alias simulator -/

theorem deleteLoop_skip {ρ : Type} (domain localPart : String) (count index : Nat)
    (s : DeleteState ρ)
    (h : ∀ j, index ≤ j → j < index + count →
      ∃ x, s.array[j]? = some x ∧ ¬ (x.DomainName = domain ∧ x.LocalPart = localPart)) :
    deleteLoop domain localPart count index s = some s := by
  induction count generalizing index with
  | zero => rfl
  | succ count ih =>
    obtain ⟨x, hx, hne⟩ := h index (Nat.le_refl _) (by omega)
    have hstep : deleteStep domain localPart index s = some s := by
      simp only [deleteStep, hx, if_neg hne]
    simp only [deleteLoop, hstep]
    exact ih (index + 1) (fun j h1 h2 => h j (by omega) (by omega))

theorem deleteLoop_add {ρ : Type} (domain localPart : String) (k1 k2 index : Nat)
    (s : DeleteState ρ) :
    deleteLoop domain localPart (k1 + k2) index s
      = (deleteLoop domain localPart k1 index s).bind
          (fun s1 => deleteLoop domain localPart k2 (index + k1) s1) := by
  induction k1 generalizing index s with
  | zero => simp [deleteLoop]
  | succ k1 ih =>
    rw [show k1 + 1 + k2 = (k1 + k2) + 1 by omega]
    simp only [deleteLoop]
    cases hs : deleteStep domain localPart index s with
    | none => simp
    | some s1 =>
      simp only [ih]
      rw [show index + 1 + k1 = index + (k1 + 1) by omega]

theorem deleteLoop_found {ρ : Type} (domain localPart : String) (pre post : List (Alias ρ))
    (a : Alias ρ)
    (ha : a.DomainName = domain ∧ a.LocalPart = localPart)
    (hpre : ∀ x ∈ pre, ¬ (x.DomainName = domain ∧ x.LocalPart = localPart))
    (hpost : ∀ x ∈ post, ¬ (x.DomainName = domain ∧ x.LocalPart = localPart)) :
    deleteLoop domain localPart (pre ++ a :: post).length 0
        { array := pre ++ a :: post, len := (pre ++ a :: post).length, missing := true,
          written := [] }
      = some { array := (pre ++ a :: post).set pre.length ((a :: post).getLast (by simp))
               len := (pre ++ a :: post).length - 1
               missing := false
               written := [.WriteHeader 200, .writeJsonResponse a] } := by
  have hlen : (pre ++ a :: post).length = pre.length + (post.length + 1) := by
    simp
  rw [hlen, deleteLoop_add, deleteLoop_skip]
  · simp only [Option.bind, Nat.zero_add]
    simp only [deleteLoop]
    have hlast : (pre ++ a :: post)[pre.length + (post.length + 1) - 1]?
        = some ((a :: post).getLast (by simp)) := by
      rw [List.getElem?_append_right (by omega)]
      rw [List.getLast_eq_getElem]
      rw [List.getElem?_eq_getElem (by simp)]
      simp
    have hstep : deleteStep domain localPart pre.length
        { array := pre ++ a :: post, len := pre.length + (post.length + 1), missing := true,
          written := [] }
        = some { array := (pre ++ a :: post).set pre.length ((a :: post).getLast (by simp))
                 len := pre.length + (post.length + 1) - 1
                 missing := false
                 written := [.WriteHeader 200, .writeJsonResponse a] } := by
      simp only [deleteStep]
      rw [show (pre ++ a :: post)[pre.length]? = some a by
        rw [List.getElem?_append_right (Nat.le_refl _)]; simp]
      simp only [if_pos ha]
      rw [if_pos (by omega), hlast]
      simp
    rw [hstep]
    simp only []
    apply deleteLoop_skip
    intro j h1 h2
    have hj : (pre ++ a :: post)[j]? = post[j - pre.length - 1]? := by
      rw [List.getElem?_append_right (by omega)]
      rw [show j - pre.length = (j - pre.length - 1) + 1 by omega]
      simp
    have hlt : j - pre.length - 1 < post.length := by omega
    refine ⟨post[j - pre.length - 1], ?_, hpost _ (List.getElem_mem _)⟩
    simp only []
    rw [List.getElem?_set_ne (by omega), hj, List.getElem?_eq_getElem hlt]
  · intro j _ h2
    have hlt : j < pre.length := by omega
    refine ⟨pre[j], ?_, hpre _ (List.getElem_mem _)⟩
    simp only []
    rw [List.getElem?_append_left hlt, List.getElem?_eq_getElem hlt]

theorem swap_remove_perm {ρ : Type} (pre post : List (Alias ρ)) (a : Alias ρ) :
    (((pre ++ a :: post).set pre.length ((a :: post).getLast (by simp))).take
      ((pre ++ a :: post).length - 1)).Perm (pre ++ post) := by
  rcases List.eq_nil_or_concat post with rfl | ⟨init, l, rfl⟩
  · simp
  · simp only [List.concat_eq_append]
    have h1 : (a :: (init ++ [l])).getLast (by simp) = l := by simp
    rw [h1]
    have h2 : (pre ++ a :: (init ++ [l])).set pre.length l = pre ++ l :: (init ++ [l]) := by
      rw [List.set_append_right _ _ (Nat.le_refl _)]
      simp
    rw [h2]
    have h3 : (pre ++ a :: (init ++ [l])).length - 1 = (pre ++ l :: init).length := by
      simp
    rw [h3]
    have h4 : pre ++ l :: (init ++ [l]) = (pre ++ l :: init) ++ [l] := by simp
    rw [h4, List.take_left]
    apply List.Perm.append_left
    exact (List.perm_append_singleton l init).symm

/-- C10: on a list of aliases with pairwise distinct keys `handleDeleteAlias` does
not panic.  When an alias has the key asked for, it writes status 200 once and
then that alias, and the list it leaves is one shorter, holds no alias with that
key, has pairwise distinct keys and is, with the deleted alias put back, a
permutation of the original list; when no alias has the key, it writes status 404
and leaves the list as it was. -/
theorem handleDeleteAlias_distinct_keys {ρ : Type} (path : String) (aliases : List (Alias ρ))
    (domain localPart : String)
    (hkeys : aliases.Pairwise (fun x y => x.key ≠ y.key)) :
    (∀ a ∈ aliases, a.key = (domain, localPart) →
      ∃ out, handleDeleteAlias path aliases domain localPart = some out ∧
        out.written = [.WriteHeader 200, .writeJsonResponse a] ∧
        out.aliases.length + 1 = aliases.length ∧
        (∀ x ∈ out.aliases, x.key ≠ (domain, localPart)) ∧
        out.aliases.Pairwise (fun x y => x.key ≠ y.key) ∧
        (a :: out.aliases).Perm aliases) ∧
    ((∀ a ∈ aliases, a.key ≠ (domain, localPart)) →
      ∃ out, handleDeleteAlias path aliases domain localPart = some out ∧
        out.written = [.WriteHeader 404] ∧ out.aliases = aliases) := by
  refine ⟨?_, ?_⟩
  · intro a hmem hkey
    obtain ⟨pre, post, rfl⟩ := List.append_of_mem hmem
    have ha : a.DomainName = domain ∧ a.LocalPart = localPart := by
      simpa [Alias.key] using hkey
    rw [List.pairwise_append] at hkeys
    obtain ⟨hpp, hcons, hcross⟩ := hkeys
    rw [List.pairwise_cons] at hcons
    have hpre : ∀ x ∈ pre, ¬ (x.DomainName = domain ∧ x.LocalPart = localPart) := by
      intro x hx hm
      exact hcross x hx a (List.mem_cons_self _ _)
        (by rw [hkey]; simp [Alias.key, hm.1, hm.2])
    have hpost : ∀ x ∈ post, ¬ (x.DomainName = domain ∧ x.LocalPart = localPart) := by
      intro x hx hm
      exact hcons.1 x hx (by rw [hkey]; simp [Alias.key, hm.1, hm.2])
    have hperm := swap_remove_perm pre post a
    have hrun : handleDeleteAlias path (pre ++ a :: post) domain localPart
        = some { aliases := ((pre ++ a :: post).set pre.length
                   ((a :: post).getLast (by simp))).take ((pre ++ a :: post).length - 1)
                 written := [.WriteHeader 200, .writeJsonResponse a]
                 errors := if path ≠ "/domains/" ++ domain ++ "/aliases/" ++ localPart then
                   ["Expected to request '/domains/" ++ domain ++ "/aliases/" ++ localPart
                     ++ "', got: " ++ path] else [] } := by
      simp only [handleDeleteAlias, deleteLoop_found domain localPart pre post a ha hpre hpost]
      simp
    have hpair : (pre ++ post).Pairwise (fun x y => x.key ≠ y.key) := by
      rw [List.pairwise_append]
      exact ⟨hpp, hcons.2, fun x hx y hy => hcross x hx y (List.mem_cons_of_mem _ hy)⟩
    refine ⟨_, hrun, ?_, ?_, ?_, ?_, ?_⟩
    · simp
    · simp only []
      rw [hperm.length_eq]
      simp
      omega
    · intro x hx hk
      simp only [] at hx
      have hx2 := hperm.subset hx
      have hm : x.DomainName = domain ∧ x.LocalPart = localPart := by
        simpa [Alias.key] using hk
      rcases List.mem_append.1 hx2 with h | h
      · exact hpre x h hm
      · exact hpost x h hm
    · simp only []
      exact (hperm.pairwise_iff (fun {x y} (h : x.key ≠ y.key) => Ne.symm h)).2 hpair
    · simp only []
      exact (List.Perm.cons a hperm).trans List.perm_middle.symm
  · intro hnone
    have hall : ∀ j, 0 ≤ j → j < 0 + aliases.length →
        ∃ x, aliases[j]? = some x ∧ ¬ (x.DomainName = domain ∧ x.LocalPart = localPart) := by
      intro j _ h2
      have hlt : j < aliases.length := by omega
      refine ⟨aliases[j], List.getElem?_eq_getElem hlt, ?_⟩
      intro hm
      have hk : aliases[j].key = (domain, localPart) := by simp [Alias.key, hm.1, hm.2]
      exact hnone _ (List.getElem_mem _) hk
    have hskip := deleteLoop_skip domain localPart aliases.length 0
      { array := aliases, len := aliases.length, missing := true, written := [] } hall
    have hrun : handleDeleteAlias path aliases domain localPart
        = some { aliases := aliases
                 written := [.WriteHeader 404]
                 errors := if path ≠ "/domains/" ++ domain ++ "/aliases/" ++ localPart then
                   ["Expected to request '/domains/" ++ domain ++ "/aliases/" ++ localPart
                     ++ "', got: " ++ path] else [] } := by
      simp only [handleDeleteAlias, hskip]
      simp
    exact ⟨_, hrun, rfl, rfl⟩

/-- C10, at a list of three aliases, deleting the first. -/
theorem handleDeleteAlias_distinct_keys_witness :
    List.Pairwise (fun x y => Alias.key x ≠ Alias.key y)
      [(⟨"d", "a", 1⟩ : Alias Nat), ⟨"d", "b", 2⟩, ⟨"e", "a", 3⟩] ∧
    ∃ out, handleDeleteAlias "/domains/d/aliases/a"
        [(⟨"d", "a", 1⟩ : Alias Nat), ⟨"d", "b", 2⟩, ⟨"e", "a", 3⟩] "d" "a" = some out ∧
      out.written = [.WriteHeader 200, .writeJsonResponse ⟨"d", "a", 1⟩] ∧
      out.aliases.length + 1 = [(⟨"d", "a", 1⟩ : Alias Nat), ⟨"d", "b", 2⟩, ⟨"e", "a", 3⟩].length ∧
      (∀ x ∈ out.aliases, x.key ≠ ("d", "a")) ∧
      out.aliases.Pairwise (fun x y => x.key ≠ y.key) ∧
      (⟨"d", "a", 1⟩ :: out.aliases).Perm [⟨"d", "a", 1⟩, ⟨"d", "b", 2⟩, ⟨"e", "a", 3⟩] :=
  ⟨by decide,
    (handleDeleteAlias_distinct_keys "/domains/d/aliases/a"
      [(⟨"d", "a", 1⟩ : Alias Nat), ⟨"d", "b", 2⟩, ⟨"e", "a", 3⟩] "d" "a" (by decide)).1
      ⟨"d", "a", 1⟩ (by decide) (by decide)⟩

/-- Without distinct keys the loop can index past the shortened slice: two aliases
with the key asked for, the second in the last place, make the handler panic. -/
theorem handleDeleteAlias_duplicate_keys_panics :
    handleDeleteAlias "/domains/d/aliases/a"
      [(⟨"d", "a", 1⟩ : Alias Nat), ⟨"d", "a", 2⟩] "d" "a" = none := by
  decide

end Migadu
